import Mathlib

/-!
Shallow embedding of the LoongArch64 register-requirements pass of the
linear-scan register allocator (`src/coreclr/jit/lsraloongarch64.cpp`).

The pass walks lowered IR nodes and, per node, appends positioned
register-demand records (uses, defs, internal-register defs and uses,
kills) and returns the number of source registers consumed.  We model the
record stream as a list of `RefRec` events, built by state-passing helpers
that mirror the `LinearScan::Build*` primitives, and the dispatcher
`BuildNode` as a function over a node datatype covering the opcode
families the verified claims are about.  Helpers of the shared LSRA build
machinery (`lsrabuild.cpp`) and the architecture register tables
(`targetloongarch64.h`) are not part of this repository snapshot; they are
modelled from the specification and marked as such in their doc comments.
-/

namespace LsraLA64

/-- Positioned register-demand record: one def, use, internal-register
def, internal-register use, or kill occurrence, carrying its candidate
register mask (a bit mask of machine registers; `0` stands for
`RBM_NONE`, i.e. no restriction). -/
inductive RefRec where
  | useRec    (mask : Nat)
  | defRec    (mask : Nat)
  | intDefRec (mask : Nat)
  | intUseRec (mask : Nat)
  | killRec   (mask : Nat)
deriving DecidableEq

/-- Recognizer for use records. -/
def isUse : RefRec → Bool
  | .useRec _ => true
  | _ => false

/-- Recognizer for def records. -/
def isDef : RefRec → Bool
  | .defRec _ => true
  | _ => false

/-- Recognizer for internal-register def records. -/
def isIntDef : RefRec → Bool
  | .intDefRec _ => true
  | _ => false

/-- Recognizer for internal-register use records. -/
def isIntUse : RefRec → Bool
  | .intUseRec _ => true
  | _ => false

/-- Recognizer for kill records. -/
def isKill : RefRec → Bool
  | .killRec _ => true
  | _ => false

@[simp] theorem isUse_useRec (m : Nat) : isUse (RefRec.useRec m) = true := rfl

@[simp] theorem isUse_defRec (m : Nat) : isUse (RefRec.defRec m) = false := rfl

@[simp] theorem isUse_intDefRec (m : Nat) : isUse (RefRec.intDefRec m) = false := rfl

@[simp] theorem isUse_intUseRec (m : Nat) : isUse (RefRec.intUseRec m) = false := rfl

@[simp] theorem isUse_killRec (m : Nat) : isUse (RefRec.killRec m) = false := rfl

@[simp] theorem isDef_useRec (m : Nat) : isDef (RefRec.useRec m) = false := rfl

@[simp] theorem isDef_defRec (m : Nat) : isDef (RefRec.defRec m) = true := rfl

@[simp] theorem isDef_intDefRec (m : Nat) : isDef (RefRec.intDefRec m) = false := rfl

@[simp] theorem isDef_intUseRec (m : Nat) : isDef (RefRec.intUseRec m) = false := rfl

@[simp] theorem isDef_killRec (m : Nat) : isDef (RefRec.killRec m) = false := rfl

@[simp] theorem isIntDef_useRec (m : Nat) : isIntDef (RefRec.useRec m) = false := rfl

@[simp] theorem isIntDef_defRec (m : Nat) : isIntDef (RefRec.defRec m) = false := rfl

@[simp] theorem isIntDef_intDefRec (m : Nat) : isIntDef (RefRec.intDefRec m) = true := rfl

@[simp] theorem isIntDef_intUseRec (m : Nat) : isIntDef (RefRec.intUseRec m) = false := rfl

@[simp] theorem isIntDef_killRec (m : Nat) : isIntDef (RefRec.killRec m) = false := rfl

@[simp] theorem isKill_useRec (m : Nat) : isKill (RefRec.useRec m) = false := rfl

@[simp] theorem isKill_defRec (m : Nat) : isKill (RefRec.defRec m) = false := rfl

@[simp] theorem isKill_intDefRec (m : Nat) : isKill (RefRec.intDefRec m) = false := rfl

@[simp] theorem isKill_intUseRec (m : Nat) : isKill (RefRec.intUseRec m) = false := rfl

@[simp] theorem isKill_killRec (m : Nat) : isKill (RefRec.killRec m) = true := rfl

/-- Mask difference: `mdiff a b` is the C expression `a & ~b` restricted
to the bits of `a` (for naturals, `a AND (a XOR b)` clears exactly the
bits of `b` from `a`). -/
def mdiff (a b : Nat) : Nat := a &&& (a ^^^ b)

/-- Machine register size in bytes (`REGSIZE_BYTES` for LoongArch64). -/
def REGSIZE_BYTES : Nat := 8

/-- Floating register size in bytes (`FP_REGSIZE_BYTES` for LoongArch64). -/
def FP_REGSIZE_BYTES : Nat := 8

/-- Stack alignment quantum in bytes (`STACK_ALIGN` for LoongArch64). -/
def STACK_ALIGN : Nat := 16

/-- Modelled from the spec: the architecture register tables
(`targetloongarch64.h`) are not under `src/`.  Register `i` is bit `i`.
Integer registers A0..A7 are bits 4..11, T0..T8 are bits 12..20, and the
callee-saved S0..S8 are bits 23..31.  `RBM_ALLINT` is the allocatable
integer register file (`allRegs(TYP_INT)`). -/
def RBM_ALLINT : Nat := (2 ^ 21 - 2 ^ 4) + (2 ^ 32 - 2 ^ 23)

/-- Modelled from the spec: call-clobbered ("trash") integer registers,
the caller-saved A0..A7 and T0..T8 (`RBM_INT_CALLEE_TRASH`). -/
def RBM_INT_CALLEE_TRASH : Nat := 2 ^ 21 - 2 ^ 4

/-- Modelled from the spec: the two temporaries reserved for the
stack-protection cookie check (`REG_GSCOOKIE_TMP_0`/`REG_GSCOOKIE_TMP_1`,
caller-saved temporaries T0 and T1), as a combined mask. -/
def RBM_GSCOOKIE_TMP : Nat := 2 ^ 12 + 2 ^ 13

/-- Modelled from the spec: the write-barrier destination byref register
(`RBM_WRITE_BARRIER_DST_BYREF`). -/
def RBM_WRITE_BARRIER_DST_BYREF : Nat := 2 ^ 18

/-- Modelled from the spec: the write-barrier source byref register
(`RBM_WRITE_BARRIER_SRC_BYREF`). -/
def RBM_WRITE_BARRIER_SRC_BYREF : Nat := 2 ^ 19

/-- Modelled from the spec: the write-barrier value-store register pair
used by the store-indirect write barrier (`BuildGCWriteBarrier`), first
component (destination address). -/
def RBM_WRITE_BARRIER_DST : Nat := 2 ^ 16

/-- Modelled from the spec: the write-barrier value-store register pair,
second component (source value). -/
def RBM_WRITE_BARRIER_SRC : Nat := 2 ^ 17

/-- Modelled from the spec: the scalar integer return register A0
(`RBM_INTRET`). -/
def RBM_INTRET : Nat := 2 ^ 4

/-- Modelled from the spec: the scalar long return register (`RBM_LNGRET`,
A0 on a 64-bit target). -/
def RBM_LNGRET : Nat := 2 ^ 4

/-- Modelled from the spec: the scalar floating return register F0
(`RBM_FLOATRET`; floating registers occupy bits from 32 up). -/
def RBM_FLOATRET : Nat := 2 ^ 32

/-- `AlignUp(size, alignment)`: round `v` up to a multiple of `a`. -/
def AlignUp (v a : Nat) : Nat := ((v + a - 1) / a) * a

/-- `emitter::isValidSimm12`: the signed 12-bit immediate encoding range
of LoongArch64 addressing, `-(1 << 11) <= value && value < (1 << 11)`. -/
def isValidSimm12 (v : Int) : Bool := (-2048 ≤ v) && (v < 2048)

@[simp] theorem isValidSimm12_zero : isValidSimm12 0 = true := rfl

/-- Build state threaded through one node: the record stream emitted so
far and the pending internal-register defs not yet consumed (mirroring
the internal-register bookkeeping reset by `clearBuildState`). -/
structure BState where
  evs : List RefRec
  pending : List Nat
deriving DecidableEq

/-- `BuildUse`: append a use record with candidate mask `m`. -/
def bUse (m : Nat) (s : BState) : BState :=
  { s with evs := s.evs ++ [RefRec.useRec m] }

/-- `BuildDef`: append a def record with candidate mask `m`. -/
def bDef (m : Nat) (s : BState) : BState :=
  { s with evs := s.evs ++ [RefRec.defRec m] }

/-- `buildInternalIntRegisterDefForNode`: append an internal-register def
with candidate mask `m` and remember it as pending. -/
def bIntDef (m : Nat) (s : BState) : BState :=
  { evs := s.evs ++ [RefRec.intDefRec m], pending := s.pending ++ [m] }

/-- `buildInternalRegisterUses`: append an internal-register use for each
pending internal def, in request order, and clear the pending list. -/
def bIntUses (s : BState) : BState :=
  { evs := s.evs ++ s.pending.map RefRec.intUseRec, pending := [] }

/-- `BuildKills`: record the node's kill mask at its position.  Modelled
from the spec: the kill-set primitive lives in `lsrabuild.cpp` (not under
`src/`); per the spec a kill set is "recorded at the node's position", so
the mask (possibly empty) is appended as one kill record. -/
def bKill (m : Nat) (s : BState) : BState :=
  { s with evs := s.evs ++ [RefRec.killRec m] }

/-- Union of a list of register masks. -/
def unionAll (l : List Nat) : Nat := l.foldr (fun a b => a ||| b) 0

/-- Modelled from the spec: `BuildCallDefsWithKills` (`lsrabuild.cpp`, not
under `src/`).  For a multi-register call return it builds one def per
ABI return slot, each candidate-masked to that slot register, and
attaches the call's kill set with those return registers excluded. -/
def bCallDefsWithKills (slots : List Nat) (killMask : Nat) (s : BState) : BState :=
  { s with evs := s.evs ++ slots.map RefRec.defRec
      ++ [RefRec.killRec (mdiff killMask (unionAll slots))] }

/-- Modelled from the spec: `BuildDefWithKills` (`lsrabuild.cpp`, not
under `src/`).  For a single-register call return, the def (pinned to the
ABI return register) is built and the call's kill set attached with it. -/
def bDefWithKills (cand killMask : Nat) (s : BState) : BState :=
  bKill killMask (bDef cand s)

/-- Modelled from the spec: `BuildCallArgUses` (`lsrabuild.cpp`, not under
`src/`).  Argument placement was already resolved by lowering; one use is
appended per register argument and their number is returned as the
argument contribution to `srcCount`. -/
def bCallArgUses (n : Nat) (s : BState) : BState :=
  { s with evs := s.evs ++ List.replicate n (RefRec.useRec 0) }

/-- Size operand of a `GT_LCLHEAP` node: a contained integer constant
(`IsCnsIntOrI`, asserted contained by the source) or a non-constant,
non-contained runtime value. -/
inductive SizeOp where
  | cns (v : Nat)
  | var
deriving DecidableEq

/-- Address operand shape of an indirection: a non-contained address in a
register, a contained address mode (`GT_LEA`) with base/index presence
and constant offset, or some other contained address (e.g. a contained
local address) contributing no uses. -/
inductive AddrForm where
  | reg
  | containedLea (hasBase hasIndex : Bool) (off : Int)
  | containedOther
deriving DecidableEq

/-- Kind of indirection node: load (`GT_IND`), null check
(`GT_NULLCHECK`), or store (`GT_STOREIND`, with data-operand containment
and the write-barrier diversion flag). -/
inductive IndKind where
  | ind
  | nullcheck
  | storeInd (dataContained : Bool) (isWB : Bool)
deriving DecidableEq

/-- Return shape of a call: void, scalar integer/long/floating, or a
multi-register return described by its list of ABI return-slot register
masks (the `ReturnTypeDesc` data, one single-register mask per slot). -/
inductive RetKind where
  | void
  | scalarInt
  | scalarLong
  | scalarFloat
  | multi (slots : List Nat)
deriving DecidableEq

/-- Configuration of a `GT_CALL` node as read by `BuildCall`:
`hasCtrlExpr` is "the call target is computed dynamically into a
register" (`gtControlExpr` or, for an indirect call, `gtCallAddr`);
`isR2RVSD` is `IsR2ROrVirtualStubRelativeIndir()` (consulted only when
there is no control expression); `argCount` is the number of register
arguments whose uses `BuildCallArgUses` appends. -/
structure CallCfg where
  retKind : RetKind
  hasCtrlExpr : Bool
  isR2RVSD : Bool
  isFastTail : Bool
  argCount : Nat
deriving DecidableEq

/-- Block-store strategy (`gtBlkOpKind`). -/
inductive BlkKind where
  | unroll
  | loop
  | cpObjUnroll
deriving DecidableEq

/-- Address operand of a block store: a non-contained address (recording
whether the node is a `GT_LCL_ADDR`, whose alignment is statically
known), a contained address mode contributing one base use
(`BuildAddrUses` on its base), or a contained local address contributing
no uses. -/
inductive BlkAddr where
  | reg (isLclAddr : Bool)
  | addrModeBase
  | containedLcl
deriving DecidableEq

/-- Whether this block address operand is contained. -/
def BlkAddr.contained : BlkAddr → Bool
  | .reg _ => false
  | _ => true

/-- Whether this block address operand is a `GT_LCL_ADDR`. -/
def BlkAddr.isLclAddr : BlkAddr → Bool
  | .reg b => b
  | .containedLcl => true
  | _ => false

/-- Configuration of a `GT_STORE_BLK` node as read by `BuildBlockStore`:
`isInit` distinguishes init blocks from copy blocks; `srcAddr` is the
address of a contained `GT_IND` source of a copy (`none` when the source
is a local with no address expression); `fillContained` is the
containment of the init fill value. -/
structure BlkCfg where
  isInit : Bool
  kind : BlkKind
  dstAddr : BlkAddr
  srcAddr : Option BlkAddr
  fillContained : Bool
  size : Nat
deriving DecidableEq

/-- The IR node model: one constructor per opcode family of
`LinearScan::BuildNode` that the verified claims are about, carrying the
node attributes the source consults.  `GT_JTRUE` carries no operand
field: on this target its condition is always consumed by the lowered
compare (`GT_JCMP`), and the dispatcher builds nothing for it. -/
inductive GenTree where
  | lclVar (candidateOrContained : Bool) (simd12 : Bool)
  | lclFld (simd12 : Bool)
  | cnsInt
  | cnsDbl
  | jtrue
  | negNot
  | binop (overflow : Bool) (op1Contained op2Contained : Bool)
  | cmp (op1Contained op2Contained : Bool)
  | ckfinite
  | cmpxchg
  | atomicOp
  | hwintrinsic
  | lclHeap (size : SizeOp)
  | lea (hasBase hasIndex : Bool) (off : Int)
  | indir (k : IndKind) (addr : AddrForm) (simd12 : Bool)
  | call (c : CallCfg)
  | storeBlk (b : BlkCfg)
deriving DecidableEq

/-- Per-method compiler context consulted by the pass: the
initialize-memory flag (`compiler->info.compInitMem`), the platform page
size (`eeGetPageSize()`), whether a stack-protection cookie check is
active (`getNeedsGSSecurityCookie()`), and two kill sets owned by
collaborators outside `src/` (the ABI call kill set returned by
`getKillSetForCall` and the write-barrier helper kill set used by
`getKillSetForBlockStore`/`getKillSetForStoreInd`). -/
structure Ctx where
  compInitMem : Bool
  pageSize : Nat
  needsGSCookie : Bool
  callKill : Nat
  wbKill : Nat
deriving DecidableEq

/-- The fatal-condition message of `NYI_LOONGARCH64` in this file. -/
def NYImsg : String := "-----unimplemented on LOONGARCH64 yet----"

/-- Message for the `unreached()` branches of `BuildBlockStore`. -/
def unreachedMsg : String := "unreached"

/-- `LinearScan::BuildIndir` (lines 616-669): internal-register analysis
of a contained `GT_LEA` address (same base+index+offset rule as the
`GT_LEA` case), the SIMD12 assembly register, the address-operand uses
(`BuildIndirUses`, modelled from the spec since `lsrabuild.cpp` is not
under `src/`: one use for a non-contained address, else base/index uses
of a contained address mode), the internal-register uses, and a def
unless the node is a store or null check. -/
def BuildIndir (k : IndKind) (addr : AddrForm) (simd12 : Bool) (s : BState) :
    Nat × BState :=
  let s :=
    match addr with
    | .containedLea _ hasIndex off =>
        if hasIndex ∧ off ≠ 0 then bIntDef 0 s
        else if ¬ isValidSimm12 off then bIntDef 0 s
        else s
    | _ => s
  let s := if simd12 then bIntDef 0 s else s
  let (n, s) :=
    match addr with
    | .reg => (1, bUse 0 s)
    | .containedLea hasBase hasIndex _ =>
        let (a, s) := if hasBase then (1, bUse 0 s) else (0, s)
        let (b, s) := if hasIndex then (1, bUse 0 s) else (0, s)
        (a + b, s)
    | .containedOther => (0, s)
  let s := bIntUses s
  match k with
  | .ind => (n, bDef 0 s)
  | _ => (n, s)

/-- `LinearScan::BuildCall` (lines 680-815).  The control-expression
candidate computation (lines 715-752) is kept verbatim, including the
source's slip on the R2R/virtual-stub fast-tail path, where the
stack-cookie exclusion is applied to `ctrlExprCandidates` (dead on that
path, since `ctrlExpr == nullptr` there) instead of `candidates`, the
mask actually passed to `buildInternalIntRegisterDefForNode`. -/
def BuildCall (ctx : Ctx) (c : CallCfg) : Nat × List RefRec :=
  let s0 : BState := ⟨[], []⟩
  let ctrl0 : Nat := 0
  let (ctrlCand, s1) :=
    if c.hasCtrlExpr then
      (if c.isFastTail then
        let t := RBM_ALLINT &&& RBM_INT_CALLEE_TRASH
        if ctx.needsGSCookie then mdiff t RBM_GSCOOKIE_TMP else t
      else ctrl0, s0)
    else if c.isR2RVSD then
      let candidates := if c.isFastTail then RBM_ALLINT &&& RBM_INT_CALLEE_TRASH else 0
      let deadCtrl :=
        if c.isFastTail ∧ ctx.needsGSCookie then mdiff ctrl0 RBM_GSCOOKIE_TMP else ctrl0
      (deadCtrl, bIntDef candidates s0)
    else (ctrl0, s0)
  let singleDst :=
    match c.retKind with
    | .scalarFloat => RBM_FLOATRET
    | .scalarLong => RBM_LNGRET
    | _ => RBM_INTRET
  let s2 := bCallArgUses c.argCount s1
  let (srcCount, s3) :=
    if c.hasCtrlExpr then (c.argCount + 1, bUse ctrlCand s2) else (c.argCount, s2)
  let s4 := bIntUses s3
  let killMask := ctx.callKill
  let s5 :=
    match c.retKind with
    | .void => bKill killMask s4
    | .multi slots => bCallDefsWithKills slots killMask s4
    | _ => bDefWithKills singleDst killMask s4
  (srcCount, s5.evs)

/-- `LinearScan::BuildBlockStore` (lines 902-1040).  The strategy switch
reserves internal registers (for `BlkOpKindCpObjUnroll` their candidates
exclude the write-barrier byref pair) and chooses the pinned candidate
masks for the destination and source address uses; then the uses,
internal-register uses, and the block store's kill set are built.
`getKillSetForBlockStore` lives outside `src/` and is modelled from the
spec: the write-barrier helper's kill set for a GC-tracked copy, empty
otherwise. -/
def BuildBlockStore (ctx : Ctx) (b : BlkCfg) : Except String (Nat × List RefRec) :=
  let s0 : BState := ⟨[], []⟩
  let pre : Except String (Nat × Nat × BState) :=
    if b.isInit then
      match b.kind with
      | .unroll =>
          let s := if b.dstAddr.contained then bIntDef 0 s0 else s0
          let s :=
            if b.dstAddr.isLclAddr ∧ FP_REGSIZE_BYTES < b.size then bIntDef 0 s else s
          .ok (0, 0, s)
      | .loop => .ok (0, 0, bIntDef RBM_ALLINT s0)
      | .cpObjUnroll => .error unreachedMsg
    else
      match b.kind with
      | .cpObjUnroll =>
          let icand :=
            mdiff RBM_ALLINT (RBM_WRITE_BARRIER_DST_BYREF ||| RBM_WRITE_BARRIER_SRC_BYREF)
          let s := bIntDef icand s0
          let s := if 2 * REGSIZE_BYTES ≤ b.size then bIntDef icand s else s
          let srcM := if b.srcAddr.isSome then RBM_WRITE_BARRIER_SRC_BYREF else 0
          .ok (RBM_WRITE_BARRIER_DST_BYREF, srcM, s)
      | .unroll => .ok (0, 0, bIntDef 0 s0)
      | .loop => .error unreachedMsg
  match pre with
  | .error e => .error e
  | .ok (dstM, srcM, s) =>
      let (u1, s) :=
        match b.dstAddr with
        | .reg _ => (1, bUse dstM s)
        | .addrModeBase => (1, bUse 0 s)
        | .containedLcl => (0, s)
      let (u2, s) :=
        if b.isInit then
          if b.fillContained then (0, s) else (1, bUse srcM s)
        else
          match b.srcAddr with
          | none => (0, s)
          | some (.reg _) => (1, bUse srcM s)
          | some .addrModeBase => (1, bUse 0 s)
          | some .containedLcl => (0, s)
      let s := bIntUses s
      let killMask :=
        match b.isInit, b.kind with
        | false, .cpObjUnroll => ctx.wbKill
        | _, _ => 0
      let s := bKill killMask s
      .ok (u1 + u2, s.evs)

/-- `LinearScan::BuildNode` (lines 45-586): the per-opcode dispatcher.
Returns the `srcCount` and the record stream appended for the node, or
the fatal "not implemented for this target" condition.  `BuildCmp`,
`BuildBinaryUses` and `BuildGCWriteBarrier` live in `lsrabuild.cpp`
outside `src/` and are modelled from the spec: a compare consumes one use
per non-contained comparand and produces no value; a binary arithmetic
node consumes one use per non-contained operand; the store-indirect write
barrier pins the address and data uses to the write-barrier register pair
and records the barrier helper's kill set. -/
def BuildNode (ctx : Ctx) (t : GenTree) : Except String (Nat × List RefRec) :=
  let s0 : BState := ⟨[], []⟩
  match t with
  | .lclVar candidateOrContained simd12 =>
      if candidateOrContained then .ok (0, [])
      else
        let s := if simd12 then bIntUses (bIntDef 0 s0) else s0
        .ok (0, (bDef 0 s).evs)
  | .lclFld simd12 =>
      let s := if simd12 then bIntUses (bIntDef 0 s0) else s0
      .ok (0, (bDef 0 s).evs)
  | .cnsInt => .ok (0, (bDef 0 s0).evs)
  | .cnsDbl => .ok (0, (bDef 0 (bIntUses (bIntDef 0 s0))).evs)
  | .jtrue => .ok (0, [])
  | .negNot => .ok (1, (bDef 0 (bUse 0 s0)).evs)
  | .binop overflow op1Contained op2Contained =>
      let s := if overflow then bIntDef 0 s0 else s0
      let (n1, s) := if op1Contained then (0, s) else (1, bUse 0 s)
      let (n2, s) := if op2Contained then (0, s) else (1, bUse 0 s)
      let s := bIntUses s
      .ok (n1 + n2, (bDef 0 s).evs)
  | .cmp op1Contained op2Contained =>
      let (n1, s) := if op1Contained then (0, s0) else (1, bUse 0 s0)
      let (n2, s) := if op2Contained then (0, s) else (1, bUse 0 s)
      .ok (n1 + n2, s.evs)
  | .ckfinite =>
      .ok (1, (bIntUses (bDef 0 (bUse 0 (bIntDef 0 s0)))).evs)
  | .cmpxchg => .error NYImsg
  | .atomicOp => .error NYImsg
  | .hwintrinsic => .error NYImsg
  | .lclHeap size =>
      match size with
      | .cns v =>
          let s :=
            if v ≠ 0 then
              let sv := AlignUp v STACK_ALIGN
              if sv ≤ REGSIZE_BYTES * 2 * 4 then s0
              else if ¬ ctx.compInitMem then
                if sv < ctx.pageSize then s0
                else bIntDef 0 (bIntDef 0 s0)
              else s0
            else s0
          .ok (0, (bDef 0 (bIntUses s)).evs)
      | .var =>
          let s := if ¬ ctx.compInitMem then bIntDef 0 (bIntDef 0 s0) else s0
          .ok (1, (bDef 0 (bIntUses (bUse 0 s))).evs)
  | .lea hasBase hasIndex off =>
      let (n1, s) := if hasBase then (1, bUse 0 s0) else (0, s0)
      let (n2, s) := if hasIndex then (1, bUse 0 s) else (0, s)
      let s :=
        if hasIndex ∧ off ≠ 0 then bIntDef 0 s
        else if ¬ isValidSimm12 off then bIntDef 0 s
        else s
      .ok (n1 + n2, (bDef 0 (bIntUses s)).evs)
  | .indir k addr simd12 =>
      match k with
      | .storeInd dataContained isWB =>
          if isWB then
            .ok (2, (bKill ctx.wbKill
              (bUse RBM_WRITE_BARRIER_SRC (bUse RBM_WRITE_BARRIER_DST s0))).evs)
          else
            let (n, s) := BuildIndir (.storeInd dataContained isWB) addr simd12 s0
            if dataContained then .ok (n, s.evs) else .ok (n + 1, (bUse 0 s).evs)
      | k0 =>
          let (n, s) := BuildIndir k0 addr simd12 s0
          .ok (n, s.evs)
  | .call c => .ok (BuildCall ctx c)
  | .storeBlk b => BuildBlockStore ctx b

/-- Record stream of a dispatcher result (empty on the fatal path, where
nothing was appended). -/
def recsOf : Except String (Nat × List RefRec) → List RefRec
  | .ok p => p.2
  | .error _ => []

/-- Source count of a dispatcher result (zero on the fatal path). -/
def srcOf : Except String (Nat × List RefRec) → Nat
  | .ok p => p.1
  | .error _ => 0

/-- Number of use records in a stream. -/
def countUses (l : List RefRec) : Nat := l.countP (fun r => isUse r)

/-- Number of internal-register def records in a stream. -/
def countIntDefs (l : List RefRec) : Nat := l.countP (fun r => isIntDef r)

/-- The use records of a stream, in order. -/
def usesOf (l : List RefRec) : List RefRec := l.filter (fun r => isUse r)

/-- The def records of a stream, in order. -/
def defsOf (l : List RefRec) : List RefRec := l.filter (fun r => isDef r)

/-- The kill records of a stream, in order. -/
def killsOf (l : List RefRec) : List RefRec := l.filter (fun r => isKill r)

/-- The internal-register def records of a stream, in order. -/
def intDefsOf (l : List RefRec) : List RefRec := l.filter (fun r => isIntDef r)

/-- Phase index of a record kind in the order claimed by the spec:
internal defs, then uses, then internal uses, then the result def, then
kills. -/
def phase : RefRec → Nat
  | .intDefRec _ => 0
  | .useRec _ => 1
  | .intUseRec _ => 2
  | .defRec _ => 3
  | .killRec _ => 4

/-- Whether a list of phase indices is nondecreasing. -/
def phasesMono : List Nat → Bool
  | [] => true
  | [_] => true
  | a :: b :: t => decide (a ≤ b) && phasesMono (b :: t)

/-- Whether a record stream follows the fixed order claimed by the spec
(internal defs, uses, internal uses, result def, kills): equivalently,
the record phases are nondecreasing along the stream. -/
def orderOk (l : List RefRec) : Bool := phasesMono (l.map phase)

/-- A concrete per-method context used by closed evaluation theorems:
memory initialization not requested, 4 KiB pages, stack-cookie check
active, the ABI call kill set, and a sample write-barrier kill set. -/
def ctx0 : Ctx := ⟨false, 4096, true, RBM_INT_CALLEE_TRASH, 2 ^ 4 + 2 ^ 5⟩

theorem mdiff_land (a b : Nat) : mdiff a b &&& b = 0 := by
  apply Nat.eq_of_testBit_eq
  intro i
  simp only [mdiff, Nat.testBit_land, Nat.testBit_xor, Nat.zero_testBit]
  cases ha : a.testBit i <;> cases hb : b.testBit i <;> simp

@[simp] theorem countUses_nil : countUses [] = 0 := rfl

@[simp] theorem countUses_cons (r : RefRec) (l : List RefRec) :
    countUses (r :: l) = countUses l + (if isUse r then 1 else 0) := by
  simp [countUses, List.countP_cons]

@[simp] theorem countUses_append (a b : List RefRec) :
    countUses (a ++ b) = countUses a + countUses b := by
  simp [countUses, List.countP_append]

@[simp] theorem countUses_replicateUse (n m : Nat) :
    countUses (List.replicate n (RefRec.useRec m)) = n := by
  induction n with
  | zero => rfl
  | succ k ih => simp [List.replicate_succ, ih]

@[simp] theorem countUses_mapIntUse (l : List Nat) :
    countUses (l.map RefRec.intUseRec) = 0 := by
  induction l with
  | nil => rfl
  | cons a t ih => simp [ih]

@[simp] theorem countUses_mapDef (l : List Nat) :
    countUses (l.map RefRec.defRec) = 0 := by
  induction l with
  | nil => rfl
  | cons a t ih => simp [ih]

@[simp] theorem countIntDefs_nil : countIntDefs [] = 0 := rfl

@[simp] theorem countIntDefs_cons (r : RefRec) (l : List RefRec) :
    countIntDefs (r :: l) = countIntDefs l + (if isIntDef r then 1 else 0) := by
  simp [countIntDefs, List.countP_cons]

@[simp] theorem countIntDefs_append (a b : List RefRec) :
    countIntDefs (a ++ b) = countIntDefs a + countIntDefs b := by
  simp [countIntDefs, List.countP_append]

@[simp] theorem countIntDefs_replicateUse (n m : Nat) :
    countIntDefs (List.replicate n (RefRec.useRec m)) = 0 := by
  induction n with
  | zero => rfl
  | succ k ih => simp [List.replicate_succ, ih]

@[simp] theorem countIntDefs_mapIntUse (l : List Nat) :
    countIntDefs (l.map RefRec.intUseRec) = 0 := by
  induction l with
  | nil => rfl
  | cons a t ih => simp [ih]

@[simp] theorem countIntDefs_mapDef (l : List Nat) :
    countIntDefs (l.map RefRec.defRec) = 0 := by
  induction l with
  | nil => rfl
  | cons a t ih => simp [ih]

@[simp] theorem usesOf_nil : usesOf [] = [] := rfl

@[simp] theorem usesOf_cons (r : RefRec) (l : List RefRec) :
    usesOf (r :: l) = if isUse r then r :: usesOf l else usesOf l := by
  simp [usesOf, List.filter_cons]

@[simp] theorem usesOf_append (a b : List RefRec) :
    usesOf (a ++ b) = usesOf a ++ usesOf b := by
  simp [usesOf]

@[simp] theorem usesOf_replicateUse (n m : Nat) :
    usesOf (List.replicate n (RefRec.useRec m)) = List.replicate n (RefRec.useRec m) := by
  induction n with
  | zero => rfl
  | succ k ih => simp [List.replicate_succ, ih]

@[simp] theorem usesOf_mapIntUse (l : List Nat) :
    usesOf (l.map RefRec.intUseRec) = [] := by
  induction l with
  | nil => rfl
  | cons a t ih => simp [ih]

@[simp] theorem usesOf_mapDef (l : List Nat) :
    usesOf (l.map RefRec.defRec) = [] := by
  induction l with
  | nil => rfl
  | cons a t ih => simp [ih]

@[simp] theorem defsOf_nil : defsOf [] = [] := rfl

@[simp] theorem defsOf_cons (r : RefRec) (l : List RefRec) :
    defsOf (r :: l) = if isDef r then r :: defsOf l else defsOf l := by
  simp [defsOf, List.filter_cons]

@[simp] theorem defsOf_append (a b : List RefRec) :
    defsOf (a ++ b) = defsOf a ++ defsOf b := by
  simp [defsOf]

@[simp] theorem defsOf_replicateUse (n m : Nat) :
    defsOf (List.replicate n (RefRec.useRec m)) = [] := by
  induction n with
  | zero => rfl
  | succ k ih => simp [List.replicate_succ, ih]

@[simp] theorem defsOf_mapIntUse (l : List Nat) :
    defsOf (l.map RefRec.intUseRec) = [] := by
  induction l with
  | nil => rfl
  | cons a t ih => simp [ih]

@[simp] theorem defsOf_mapDef (l : List Nat) :
    defsOf (l.map RefRec.defRec) = l.map RefRec.defRec := by
  induction l with
  | nil => rfl
  | cons a t ih => simp [ih]

@[simp] theorem killsOf_nil : killsOf [] = [] := rfl

@[simp] theorem killsOf_cons (r : RefRec) (l : List RefRec) :
    killsOf (r :: l) = if isKill r then r :: killsOf l else killsOf l := by
  simp [killsOf, List.filter_cons]

@[simp] theorem killsOf_append (a b : List RefRec) :
    killsOf (a ++ b) = killsOf a ++ killsOf b := by
  simp [killsOf]

@[simp] theorem killsOf_replicateUse (n m : Nat) :
    killsOf (List.replicate n (RefRec.useRec m)) = [] := by
  induction n with
  | zero => rfl
  | succ k ih => simp [List.replicate_succ, ih]

@[simp] theorem killsOf_mapIntUse (l : List Nat) :
    killsOf (l.map RefRec.intUseRec) = [] := by
  induction l with
  | nil => rfl
  | cons a t ih => simp [ih]

@[simp] theorem killsOf_mapDef (l : List Nat) :
    killsOf (l.map RefRec.defRec) = [] := by
  induction l with
  | nil => rfl
  | cons a t ih => simp [ih]

@[simp] theorem intDefsOf_nil : intDefsOf [] = [] := rfl

@[simp] theorem intDefsOf_cons (r : RefRec) (l : List RefRec) :
    intDefsOf (r :: l) = if isIntDef r then r :: intDefsOf l else intDefsOf l := by
  simp [intDefsOf, List.filter_cons]

@[simp] theorem intDefsOf_append (a b : List RefRec) :
    intDefsOf (a ++ b) = intDefsOf a ++ intDefsOf b := by
  simp [intDefsOf]

@[simp] theorem intDefsOf_replicateUse (n m : Nat) :
    intDefsOf (List.replicate n (RefRec.useRec m)) = [] := by
  induction n with
  | zero => rfl
  | succ k ih => simp [List.replicate_succ, ih]

@[simp] theorem intDefsOf_mapIntUse (l : List Nat) :
    intDefsOf (l.map RefRec.intUseRec) = [] := by
  induction l with
  | nil => rfl
  | cons a t ih => simp [ih]

/-- Follows the wording of claim C1 (the spec §4.6 table): a constant
size of 0 requests 0 scratch registers; a constant size whose stack
alignment round-up is at most 8 register-widths requests 0; above that,
0 when memory initialization is requested, otherwise 0 below one page
and 2 at a page or more; a non-constant size requests 2 without
initialization and 0 with it. -/
def specLclHeapScratch (initReq : Bool) (pageSize : Nat) : SizeOp → Nat
  | .cns v =>
      if v = 0 then 0
      else
        if AlignUp v STACK_ALIGN ≤ 8 * REGSIZE_BYTES then 0
        else if initReq then 0
        else if AlignUp v STACK_ALIGN < pageSize then 0
        else 2
  | .var => if initReq then 0 else 2

/-- Follows the wording of claim C1: a non-constant size contributes
exactly one use for the size operand, a constant size none. -/
def specLclHeapUses : SizeOp → Nat
  | .cns _ => 0
  | .var => 1

/-- C1: for every `GT_LCLHEAP` node, the number of internal scratch
registers requested follows the §4.6 table exactly, a non-constant size
contributes exactly one use (and source count 1), and a constant size
contributes zero uses (and source count 0). -/
theorem C1_lclheap_scratch_table (ctx : Ctx) (sz : SizeOp) :
    countIntDefs (recsOf (BuildNode ctx (.lclHeap sz)))
        = specLclHeapScratch ctx.compInitMem ctx.pageSize sz
      ∧ countUses (recsOf (BuildNode ctx (.lclHeap sz))) = specLclHeapUses sz
      ∧ srcOf (BuildNode ctx (.lclHeap sz)) = specLclHeapUses sz := by
  have hlim : REGSIZE_BYTES * 2 * 4 = 8 * REGSIZE_BYTES := by decide
  cases sz with
  | cns v =>
      simp only [BuildNode, specLclHeapScratch, specLclHeapUses, hlim]
      split_ifs <;>
        simp_all [recsOf, srcOf, countIntDefs, countUses, bDef, bIntUses, bIntDef, bUse,
          List.countP_cons]
  | var =>
      simp only [BuildNode, specLclHeapScratch, specLclHeapUses, hlim]
      split_ifs <;>
        simp_all [recsOf, srcOf, countIntDefs, countUses, bDef, bIntUses, bIntDef, bUse,
          List.countP_cons]

/-- C6: every atomic/interlocked node (`GT_CMPXCHG`, and the
`GT_LOCKADD`/`GT_XORR`/`GT_XAND`/`GT_XADD`/`GT_XCHG` family) and every
hardware-intrinsic node fails fast with the "not implemented for this
target" fatal condition, appending no demand records. -/
theorem C6_unsupported_fatal (ctx : Ctx) :
    BuildNode ctx .cmpxchg = .error NYImsg
      ∧ BuildNode ctx .atomicOp = .error NYImsg
      ∧ BuildNode ctx .hwintrinsic = .error NYImsg
      ∧ recsOf (BuildNode ctx .cmpxchg) = []
      ∧ recsOf (BuildNode ctx .atomicOp) = []
      ∧ recsOf (BuildNode ctx .hwintrinsic) = [] :=
  ⟨rfl, rfl, rfl, rfl, rfl, rfl⟩

/-- C10: a `GT_LCL_VAR` determined to be a register candidate or
contained returns source count 0 and appends no demand records at all. -/
theorem C10_lclvar_candidate_no_records (ctx : Ctx) (simd12 : Bool) :
    BuildNode ctx (.lclVar true simd12) = .ok (0, []) := rfl

/-- C7 (counterexample): at a concrete `GT_CKFINITE` node the record
stream does not follow the claimed fixed order (internal defs, uses,
internal uses, result def, kills) — the result def is emitted before the
internal-register use. -/
theorem C7_counterexample_ckfinite :
    orderOk (recsOf (BuildNode ctx0 .ckfinite)) = false := by decide

/-- C7 (amended): for every `GT_LCLHEAP` node the records do appear in
the claimed order, while `GT_CKFINITE` emits internal def, operand use,
result def, and then the internal-register use, so its result def
precedes the internal-register use. -/
theorem C7_order_lclheap_ckfinite (ctx : Ctx) (sz : SizeOp) :
    orderOk (recsOf (BuildNode ctx (.lclHeap sz))) = true
      ∧ recsOf (BuildNode ctx .ckfinite)
        = [RefRec.intDefRec 0, RefRec.useRec 0, RefRec.defRec 0, RefRec.intUseRec 0] := by
  refine ⟨?_, rfl⟩
  cases sz with
  | cns v =>
      simp only [BuildNode]
      split_ifs <;> decide
  | var =>
      simp only [BuildNode]
      split_ifs <;> decide

/-- The concrete fast tail call via R2R/virtual-stub relative indirection
(no control expression) exercised by the C2 evidence theorem. -/
def cfgR2RBug : CallCfg := ⟨.void, false, true, true, 0⟩

/-- The concrete fast tail call with an explicit control expression
exercised by the C2 evidence theorem. -/
def cfgCtrlGood : CallCfg := ⟨.void, true, false, true, 0⟩

/-- C2 (code-bug evidence): with a stack-cookie check active, the
explicit control-expression path restricts the call-target use to the
call-clobbered registers minus the two cookie temporaries, but on the
R2R/virtual-stub fast-tail path the internal register materializing the
call address is built with the full call-clobbered mask — the cookie
temporaries are not excluded there (the source subtracts them from the
dead `ctrlExprCandidates` instead of `candidates`). -/
theorem C2_gs_cookie_bug :
    usesOf (recsOf (BuildNode ctx0 (.call cfgCtrlGood)))
        = [RefRec.useRec (mdiff (RBM_ALLINT &&& RBM_INT_CALLEE_TRASH) RBM_GSCOOKIE_TMP)]
      ∧ mdiff (RBM_ALLINT &&& RBM_INT_CALLEE_TRASH) RBM_GSCOOKIE_TMP &&& RBM_GSCOOKIE_TMP = 0
      ∧ intDefsOf (recsOf (BuildNode ctx0 (.call cfgR2RBug)))
        = [RefRec.intDefRec (RBM_ALLINT &&& RBM_INT_CALLEE_TRASH)]
      ∧ (RBM_ALLINT &&& RBM_INT_CALLEE_TRASH) &&& RBM_GSCOOKIE_TMP = RBM_GSCOOKIE_TMP := by
  decide

/-- C3: for a `GT_LEA` node and for an indirection whose contained
address is an address mode (the `BuildIndir` analysis): with a non-null
index and a nonzero offset, exactly one internal scratch register is
requested regardless of offset magnitude; with a null index, exactly one
is requested when the offset does not fit the signed 12-bit immediate
encoding and zero when it does. -/
theorem C3_addr_mode_scratch (ctx : Ctx) (hasBase hasIndex : Bool) (off : Int)
    (k : IndKind) :
    (hasIndex = true ∧ off ≠ 0 →
        countIntDefs (recsOf (BuildNode ctx (.lea hasBase hasIndex off))) = 1)
  ∧ (hasIndex = false →
        countIntDefs (recsOf (BuildNode ctx (.lea hasBase hasIndex off)))
          = if isValidSimm12 off then 0 else 1)
  ∧ (hasIndex = true ∧ off ≠ 0 →
        countIntDefs (BuildIndir k (.containedLea hasBase hasIndex off) false ⟨[], []⟩).2.evs
          = 1)
  ∧ (hasIndex = false →
        countIntDefs (BuildIndir k (.containedLea hasBase hasIndex off) false ⟨[], []⟩).2.evs
          = if isValidSimm12 off then 0 else 1) := by
  refine ⟨?_, ?_, ?_, ?_⟩
  · rintro ⟨hI, hO⟩
    subst hI
    cases hasBase <;>
      simp [BuildNode, bUse, bIntDef, bIntUses, bDef, recsOf, hO]
  · intro hI
    subst hI
    by_cases hs : isValidSimm12 off <;> cases hasBase <;>
      simp [BuildNode, bUse, bIntDef, bIntUses, bDef, recsOf, hs]
  · rintro ⟨hI, hO⟩
    subst hI
    cases hasBase <;> cases k <;>
      simp [BuildIndir, bUse, bIntDef, bIntUses, bDef, hO]
  · intro hI
    subst hI
    by_cases hs : isValidSimm12 off <;> cases hasBase <;> cases k <;>
      simp [BuildIndir, bUse, bIntDef, bIntUses, bDef, hs]

/-- Witness for C3: at a concrete effective-address node with both an
index and the out-of-range offset 4096, one internal register is
requested; with no index and the same offset, one is requested as well
(4096 does not fit the signed 12-bit immediate). -/
theorem C3_addr_mode_scratch_witness :
    countIntDefs (recsOf (BuildNode ctx0 (.lea true true 4096))) = 1
      ∧ countIntDefs (recsOf (BuildNode ctx0 (.lea true false 4096)))
        = if isValidSimm12 4096 then 0 else 1 :=
  ⟨(C3_addr_mode_scratch ctx0 true true 4096 .ind).1 ⟨rfl, by decide⟩,
   (C3_addr_mode_scratch ctx0 true false 4096 .ind).2.1 rfl⟩

/-- C4: a call with a multi-register return of N ABI slots builds exactly
the N defs, in slot order and each candidate-masked to its slot register,
and the kill set attached with them excludes the return registers; a call
producing no value attaches the kill set standalone, with no defs. -/
theorem C4_call_defs_kills (ctx : Ctx) (slots : List Nat)
    (hasCtrl r2r ft : Bool) (argc : Nat) :
    defsOf (recsOf (BuildNode ctx (.call ⟨.multi slots, hasCtrl, r2r, ft, argc⟩)))
        = slots.map RefRec.defRec
      ∧ killsOf (recsOf (BuildNode ctx (.call ⟨.multi slots, hasCtrl, r2r, ft, argc⟩)))
        = [RefRec.killRec (mdiff ctx.callKill (unionAll slots))]
      ∧ mdiff ctx.callKill (unionAll slots) &&& unionAll slots = 0
      ∧ defsOf (recsOf (BuildNode ctx (.call ⟨.void, hasCtrl, r2r, ft, argc⟩))) = []
      ∧ killsOf (recsOf (BuildNode ctx (.call ⟨.void, hasCtrl, r2r, ft, argc⟩)))
        = [RefRec.killRec ctx.callKill] := by
  refine ⟨?_, ?_, mdiff_land _ _, ?_, ?_⟩ <;>
    cases hasCtrl <;> cases r2r <;> cases ft <;> by_cases hg : ctx.needsGSCookie <;>
      simp [BuildNode, BuildCall, bCallArgUses, bCallDefsWithKills, bDefWithKills,
        bKill, bIntUses, bIntDef, bUse, bDef, recsOf, hg]

/-- The GC-tracked block-copy node family exercised by the C5 theorem: a
`BlkOpKindCpObjUnroll` copy with a non-contained destination address and
an optional non-contained source address. -/
def cpObjNode (dstIsLcl srcPresent fillContained : Bool) (size : Nat) : GenTree :=
  .storeBlk ⟨false, .cpObjUnroll, .reg dstIsLcl,
    if srcPresent then some (.reg false) else none, fillContained, size⟩

/-- C5: a GC-tracked block copy (`BlkOpKindCpObjUnroll`) pins its
destination-address use to the write-barrier destination byref register
and its source-address use (when a source address is present) to the
write-barrier source byref register; it requests one internal scratch
register, or two exactly when the size is at least two register-widths,
whose candidates exclude both write-barrier registers; and the block
store's kill set is attached. -/
theorem C5_cpobj_write_barrier (ctx : Ctx) (dstIsLcl srcPresent fillContained : Bool)
    (size : Nat) :
    usesOf (recsOf (BuildNode ctx (cpObjNode dstIsLcl srcPresent fillContained size)))
        = RefRec.useRec RBM_WRITE_BARRIER_DST_BYREF ::
            (if srcPresent then [RefRec.useRec RBM_WRITE_BARRIER_SRC_BYREF] else [])
      ∧ intDefsOf (recsOf (BuildNode ctx (cpObjNode dstIsLcl srcPresent fillContained size)))
        = List.replicate (if 2 * REGSIZE_BYTES ≤ size then 2 else 1)
            (RefRec.intDefRec (mdiff RBM_ALLINT
              (RBM_WRITE_BARRIER_DST_BYREF ||| RBM_WRITE_BARRIER_SRC_BYREF)))
      ∧ mdiff RBM_ALLINT (RBM_WRITE_BARRIER_DST_BYREF ||| RBM_WRITE_BARRIER_SRC_BYREF)
            &&& (RBM_WRITE_BARRIER_DST_BYREF ||| RBM_WRITE_BARRIER_SRC_BYREF) = 0
      ∧ RefRec.killRec ctx.wbKill
          ∈ recsOf (BuildNode ctx (cpObjNode dstIsLcl srcPresent fillContained size)) := by
  refine ⟨?_, ?_, mdiff_land _ _, ?_⟩ <;>
    cases srcPresent <;> by_cases hsz : 2 * REGSIZE_BYTES ≤ size <;>
      simp [cpObjNode, BuildNode, BuildBlockStore, bUse, bIntDef, bIntUses, bKill,
        recsOf, hsz, List.replicate_succ]

/-- C9: every comparison node (`GT_EQ`..`GT_GT`, `GT_JCMP`) consumes one
use per non-contained comparand and builds no def; a `GT_JTRUE` builds no
def either (its condition was already consumed by the lowered compare),
so neither produces a value. -/
theorem C9_cmp_no_value (ctx : Ctx) (op1Contained op2Contained : Bool) :
    defsOf (recsOf (BuildNode ctx (.cmp op1Contained op2Contained))) = []
      ∧ usesOf (recsOf (BuildNode ctx (.cmp op1Contained op2Contained)))
        = (if op1Contained then [] else [RefRec.useRec 0])
            ++ (if op2Contained then [] else [RefRec.useRec 0])
      ∧ srcOf (BuildNode ctx (.cmp op1Contained op2Contained))
        = countUses (recsOf (BuildNode ctx (.cmp op1Contained op2Contained)))
      ∧ BuildNode ctx .jtrue = .ok (0, []) := by
  cases op1Contained <;> cases op2Contained <;>
    simp [BuildNode, bUse, recsOf, srcOf]

theorem buildIndir_count (k : IndKind) (addr : AddrForm) (s12 : Bool) :
    (BuildIndir k addr s12 ⟨[], []⟩).1
      = countUses (BuildIndir k addr s12 ⟨[], []⟩).2.evs := by
  cases addr with
  | reg =>
      cases s12 <;> cases k <;> simp [BuildIndir, bUse, bIntDef, bIntUses, bDef]
  | containedLea hb hi off =>
      cases s12 <;> cases hb <;> cases hi <;>
        by_cases h0 : off = 0 <;> by_cases hs : isValidSimm12 off <;>
          cases k <;> simp [BuildIndir, bUse, bIntDef, bIntUses, bDef, h0, hs]
  | containedOther =>
      cases s12 <;> cases k <;> simp [BuildIndir, bUse, bIntDef, bIntUses, bDef]

/-- C8: for every node of the embedded dispatcher that does not hit the
fatal path, the `srcCount` returned by `BuildNode` equals the number of
use records actually appended (kill and internal-register records not
counted). -/
theorem C8_srccount_equals_uses (ctx : Ctx) (t : GenTree) :
    srcOf (BuildNode ctx t) = countUses (recsOf (BuildNode ctx t)) := by
  cases t with
  | lclVar cand s12 =>
      cases cand <;> cases s12 <;>
        simp [BuildNode, bDef, bIntDef, bIntUses, recsOf, srcOf]
  | lclFld s12 =>
      cases s12 <;> simp [BuildNode, bDef, bIntDef, bIntUses, recsOf, srcOf]
  | cnsInt => simp [BuildNode, bDef, recsOf, srcOf]
  | cnsDbl => simp [BuildNode, bDef, bIntDef, bIntUses, recsOf, srcOf]
  | jtrue => rfl
  | negNot => simp [BuildNode, bDef, bUse, recsOf, srcOf]
  | binop ov c1 c2 =>
      cases ov <;> cases c1 <;> cases c2 <;>
        simp [BuildNode, bDef, bUse, bIntDef, bIntUses, recsOf, srcOf]
  | cmp c1 c2 =>
      cases c1 <;> cases c2 <;> simp [BuildNode, bUse, recsOf, srcOf]
  | ckfinite => simp [BuildNode, bDef, bUse, bIntDef, bIntUses, recsOf, srcOf]
  | cmpxchg => rfl
  | atomicOp => rfl
  | hwintrinsic => rfl
  | lclHeap sz =>
      cases sz with
      | cns v =>
          simp only [BuildNode]
          split_ifs <;>
            simp [bDef, bUse, bIntDef, bIntUses, recsOf, srcOf]
      | var =>
          simp only [BuildNode]
          split_ifs <;>
            simp [bDef, bUse, bIntDef, bIntUses, recsOf, srcOf]
  | lea hb hi off =>
      cases hb <;> cases hi <;>
        by_cases h0 : off = 0 <;> by_cases hs : isValidSimm12 off <;>
          simp [BuildNode, bDef, bUse, bIntDef, bIntUses, recsOf, srcOf, h0, hs]
  | indir k addr s12 =>
      cases k with
      | ind =>
          have hc := buildIndir_count .ind addr s12
          rcases hBI : BuildIndir .ind addr s12 ⟨[], []⟩ with ⟨n, s⟩
          rw [hBI] at hc
          simp [BuildNode, recsOf, srcOf, hBI, hc]
      | nullcheck =>
          have hc := buildIndir_count .nullcheck addr s12
          rcases hBI : BuildIndir .nullcheck addr s12 ⟨[], []⟩ with ⟨n, s⟩
          rw [hBI] at hc
          simp [BuildNode, recsOf, srcOf, hBI, hc]
      | storeInd dc wb =>
          cases wb with
          | true => simp [BuildNode, recsOf, srcOf, bUse, bKill]
          | false =>
              have hc := buildIndir_count (.storeInd dc false) addr s12
              rcases hBI : BuildIndir (.storeInd dc false) addr s12 ⟨[], []⟩ with ⟨n, s⟩
              rw [hBI] at hc
              cases dc <;> simp [BuildNode, recsOf, srcOf, bUse, hBI, hc]
  | call c =>
      obtain ⟨rk, hctrl, r2r, ft, argc⟩ := c
      cases rk <;> cases hctrl <;> cases r2r <;> cases ft <;>
        by_cases hg : ctx.needsGSCookie <;>
          simp [BuildNode, BuildCall, bCallArgUses, bCallDefsWithKills, bDefWithKills,
            bKill, bIntUses, bIntDef, bUse, bDef, recsOf, srcOf, hg]
  | storeBlk b =>
      obtain ⟨isInit, kind, dstAddr, srcAddr, fillC, size⟩ := b
      by_cases h1 : FP_REGSIZE_BYTES < size <;>
        by_cases h2 : 2 * REGSIZE_BYTES ≤ size <;>
          cases isInit <;> cases kind <;>
            rcases dstAddr with (_ | _) | _ | _ <;> cases fillC <;>
              rcases srcAddr with _ | (_ | _ | _) <;>
              simp [BuildNode, BuildBlockStore, BlkAddr.contained, BlkAddr.isLclAddr,
                bUse, bIntDef, bIntUses, bKill, recsOf, srcOf, h1, h2]

end LsraLA64
